import Mathlib

/-!
Verification of the KeepInTouch backend's periodic form-generation and
status-lifecycle engine, shallowly embedded from the Python source
(`models.py`, `routers/form.py`, `routers/animal.py`, `app/schemas/form.py`).

Datetimes are modelled as calendar records (year, month, day, seconds of
day); `datetime.utcnow()` is an explicit `now` parameter.  The SQLAlchemy
session is a record of an animal table, a form table and the autoincrement
counter; `query(...).filter(id == x).first()` is `List.find?`, a mutation
of the found ORM row is a map over the table replacing the rows with that
id, `db.delete` removes the row.  JSON (de)serialisation of the
`form_ids` text column (`json.dumps` / `json.loads` on lists of ints)
is modelled by a concrete character-level codec producing exactly the
strings `json.dumps` produces for int lists.
-/

/-- Calendar datetime: year (astronomical), month 1..12, day 1..31 and
seconds within the day.  Python `datetime` comparison on valid dates is
lexicographic on these components. -/
structure DateTime where
  year : Int
  month : Nat
  day : Nat
  sec : Nat
deriving DecidableEq, Repr, Inhabited

/-- Gregorian leap-year rule, as used by Python's `calendar` module. -/
def isLeap (y : Int) : Bool :=
  Int.emod y 4 == 0 && (Int.emod y 100 != 0 || Int.emod y 400 == 0)

/-- Number of days in a month (`calendar.monthrange(year, month)[1]`). -/
def daysInMonth (y : Int) (m : Nat) : Nat :=
  if m == 2 then (if isLeap y then 29 else 28)
  else if m == 4 || m == 6 || m == 9 || m == 11 then 30
  else 31

/-- Chronological comparison of datetimes (Python datetime ordering),
lexicographic on (year, month, day, sec). -/
def DateTime.le (a b : DateTime) : Bool :=
  decide (a.year < b.year) ||
    (a.year == b.year && (a.month < b.month ||
      (a.month == b.month && (a.day < b.day ||
        (a.day == b.day && a.sec ≤ b.sec)))))

/-- Successor day, rolling over month and year boundaries. -/
def DateTime.nextDay (d : DateTime) : DateTime :=
  if d.day + 1 ≤ daysInMonth d.year d.month then { d with day := d.day + 1 }
  else if d.month + 1 ≤ 12 then { d with month := d.month + 1, day := 1 }
  else { d with year := d.year + 1, month := 1, day := 1 }

/-- Adding whole days to a datetime (`timedelta(days=n)` on valid dates). -/
def addDays (d : DateTime) : Nat → DateTime
  | 0 => d
  | n + 1 => addDays d.nextDay n

/-- Calendar month addition as performed by
`dateutil.relativedelta.relativedelta(months=p)`: the month index is
shifted by `p` (normalising into the year), and the day is clamped with
`min(day, monthrange(y, m)[1])`.  The time of day is unchanged. -/
def addMonths (d : DateTime) (p : Int) : DateTime :=
  let t : Int := (d.month : Int) - 1 + p
  let y : Int := d.year + Int.ediv t 12
  let m : Nat := (Int.emod t 12).toNat + 1
  { d with year := y, month := m, day := min d.day (daysInMonth y m) }

/-- Month addition as worded in the specification: adding N months
preserves the day-of-month when it is valid in the target month and
clamps to the end of the shorter month otherwise. -/
def specAddMonths (d : DateTime) (p : Int) : DateTime :=
  let t : Int := (d.month : Int) - 1 + p
  let y : Int := d.year + Int.ediv t 12
  let m : Nat := (Int.emod t 12).toNat + 1
  let dim := daysInMonth y m
  { d with year := y, month := m, day := if d.day ≤ dim then d.day else dim }

/-! JSON codec for lists of integers, producing and consuming exactly the
strings `json.dumps` produces for Python int lists: an opening bracket,
the decimal representations joined by a comma and a space, and the
closing bracket. -/

/-- Decimal digit character for a value 0..9. -/
def digitChar (d : Nat) : Char :=
  match d with
  | 0 => '0' | 1 => '1' | 2 => '2' | 3 => '3' | 4 => '4'
  | 5 => '5' | 6 => '6' | 7 => '7' | 8 => '8' | _ => '9'

/-- Big-endian decimal digits of a natural number; fuel-structured
recursion (`fuel ≥ n` suffices), empty on 0. -/
def natDigitsAux : Nat → Nat → List Char
  | 0, _ => []
  | fuel + 1, n =>
    if n == 0 then []
    else natDigitsAux fuel (n / 10) ++ [digitChar (n % 10)]

/-- Decimal representation of a natural number, as `str(n)` prints it. -/
def natToChars (n : Nat) : List Char :=
  if n == 0 then ['0'] else natDigitsAux n n

/-- Decimal representation of an integer, as `str(i)` prints it. -/
def intToChars (i : Int) : List Char :=
  if i < 0 then '-' :: natToChars (-i).toNat else natToChars i.toNat

/-- Chunks joined by the separator comma-space, as `", ".join`. -/
def joinSep : List (List Char) → List Char
  | [] => []
  | [p] => p
  | p :: q :: ps => p ++ ',' :: ' ' :: joinSep (q :: ps)

/-- Serialisation of an int list exactly as `json.dumps` renders it. -/
def dumpsIntList (l : List Int) : String :=
  String.mk ('[' :: joinSep (l.map intToChars) ++ [']'])

/-- Value of a decimal digit character, failing on non-digits. -/
def digitVal (c : Char) : Option Nat :=
  if '0' ≤ c ∧ c ≤ '9' then some (c.toNat - 48) else none

/-- Accumulator step of decimal parsing: shift and add the next digit,
failing on a non-digit character. -/
def parseDigitStep (acc : Option Nat) (c : Char) : Option Nat :=
  acc.bind (fun a => (digitVal c).map (fun d => a * 10 + d))

/-- Parse a non-empty all-digit chunk as a natural number. -/
def parseNatChars (cs : List Char) : Option Nat :=
  match cs with
  | [] => none
  | _ => cs.foldl parseDigitStep (some 0)

/-- Parse an optionally negated decimal chunk as an integer. -/
def parseIntChars (cs : List Char) : Option Int :=
  match cs with
  | [] => none
  | c :: rest =>
    if c == '-' then (parseNatChars rest).map (fun n => -(n : Int))
    else (parseNatChars cs).map (fun n => (n : Int))

/-- Split a character list at every comma-space separator. -/
def splitCS : List Char → List (List Char)
  | [] => [[]]
  | [c] => [[c]]
  | c1 :: c2 :: rest =>
    if c1 == ',' && c2 == ' ' then [] :: splitCS rest
    else
      match splitCS (c2 :: rest) with
      | [] => [[c1]]
      | g :: gs => (c1 :: g) :: gs

/-- Parse every chunk as an integer, failing if any chunk fails. -/
def parseAll : List (List Char) → Option (List Int)
  | [] => some []
  | p :: ps =>
    match parseIntChars p, parseAll ps with
    | some i, some is => some (i :: is)
    | _, _ => none

/-- Deserialisation of a JSON int-list text (`json.loads` restricted to
the int-list sublanguage the application stores). -/
def loadsIntList (s : String) : Option (List Int) :=
  match s.data with
  | '[' :: rest =>
    if rest.getLast? == some ']' then
      let inner := rest.dropLast
      if inner.isEmpty then some [] else parseAll (splitCS inner)
    else none
  | _ => none

/-! Data model, from `models.py`. -/

/-- Form row (`models.Form`): lifecycle status string plus the five date
columns. -/
structure Form where
  id : Nat
  animal_id : Nat
  form_status : String
  created_date : DateTime
  assigned_date : Option DateTime
  filled_date : Option DateTime
  controlled_date : Option DateTime
  control_due_date : Option DateTime
deriving DecidableEq, Repr, Inhabited

/-- Animal row (`models.Animal`), restricted to the columns the engine
reads or writes.  The column `_form_ids` is the JSON text column behind
the `form_ids` property (None models an unset column). -/
structure Animal where
  id : Nat
  _form_ids : Option String
  form_status : String
  last_form_sent_date : Option DateTime
  last_form_created_date : Option DateTime
  form_generation_period : Option Int
deriving DecidableEq, Repr, Inhabited

/-- Property getter `Animal.form_ids`: an unset or empty (falsy) column
reads as the empty list, otherwise the JSON text is decoded.  Python's
`json.loads` raises on undecodable text; the operations only ever store
setter output or the column default so that case is unreachable, and the
total model returns the empty list there. -/
def Animal.form_ids (a : Animal) : List Int :=
  match a._form_ids with
  | none => []
  | some s => if s.data.isEmpty then [] else (loadsIntList s).getD []

/-- Property setter `Animal.form_ids = value`: stores `json.dumps(value)`. -/
def Animal.setFormIds (a : Animal) (l : List Int) : Animal :=
  { a with _form_ids := some (dumpsIntList l) }

/-- Database session state: the two tables and the forms autoincrement. -/
structure DB where
  animals : List Animal
  forms : List Form
  next_form_id : Nat
deriving DecidableEq, Repr, Inhabited

/-- Error raised by the routes (`HTTPException(404)`). -/
inductive Err where
  | notFound
deriving DecidableEq, Repr

/-- Update every row of a table that carries the given id; mirrors
mutating the ORM object found by `filter(id == i).first()` under the
unique-id discipline of a primary-key column. -/
def updateById {α : Type} (getId : α → Nat) (l : List α) (i : Nat) (g : α → α) : List α :=
  l.map (fun x => if getId x == i then g x else x)

/-! Operations, from `routers/form.py` and `routers/animal.py`. -/

/-- Latest form of an animal: `query(Form).filter(animal_id ==
aid).order_by(Form.id.desc()).first()`, the form with the greatest id. -/
def latestForm (db : DB) (aid : Nat) : Option Form :=
  (db.forms.filter (fun f => f.animal_id == aid)).foldl
    (fun acc f =>
      match acc with
      | none => some f
      | some g => if g.id < f.id then some f else some g)
    none

/-- Status reconciler `update_animal_from_latest_form` (form.py lines
14-34): copies the latest form's status onto the animal and, when that
form has an assigned date, copies it into `last_form_sent_date`. -/
def update_animal_from_latest_form (db : DB) (animal_id : Nat) : DB :=
  match db.animals.find? (fun a => a.id == animal_id) with
  | none => db
  | some _ =>
    match latestForm db animal_id with
    | none => db
    | some lf =>
      { db with
        animals := updateById Animal.id db.animals animal_id (fun a =>
          { a with
            form_status := lf.form_status
            last_form_sent_date :=
              match lf.assigned_date with
              | some d => some d
              | none => a.last_form_sent_date }) }

/-- Due check of the periodic generator (form.py lines 43-52): animals
with an unset or non-positive period are skipped; an unset anchor makes
the animal due; otherwise the animal is due when `now >=
last_form_sent_date + relativedelta(months=period)`. -/
def should_create (a : Animal) (now : DateTime) : Bool :=
  match a.form_generation_period with
  | none => false
  | some p =>
    if p ≤ 0 then false
    else
      match a.last_form_sent_date with
      | none => true
      | some last => DateTime.le (addMonths last p) now

/-- Per-animal body of the periodic sweep (form.py lines 43-70): when
the animal is due, insert a fresh `created` form stamped `now`, append
its id to the animal's `form_ids`, and record the form in the result
list.  `last_form_sent_date` and `last_form_created_date` are not
written. -/
def sweepStep (now : DateTime) (st : DB × List Form) (a : Animal) : DB × List Form :=
  if should_create a now then
    let fid := st.1.next_form_id
    let new_form : Form :=
      { id := fid, animal_id := a.id, form_status := "created", created_date := now
        assigned_date := none, filled_date := none, controlled_date := none
        control_due_date := none }
    let db1 : DB := { st.1 with forms := st.1.forms ++ [new_form], next_form_id := fid + 1 }
    let db2 : DB :=
      { db1 with
        animals := updateById Animal.id db1.animals a.id (fun b =>
          b.setFormIds (b.form_ids ++ [(fid : Int)])) }
    (db2, st.2 ++ [new_form])
  else st

/-- Periodic generator `run_periodic_form_generation` (form.py lines
37-72): one sweep over all animals. -/
def run_periodic_form_generation (db : DB) (now : DateTime) : DB × List Form :=
  db.animals.foldl (sweepStep now) (db, [])

/-- Route `create_form` (form.py lines 75-100): verify the animal
exists, insert a default form (status `created`, creation date from the
column default `utcnow`), append its id to the animal's `form_ids`.  It
does not call the status reconciler. -/
def create_form (db : DB) (now : DateTime) (animal_id : Nat) : Except Err (DB × Form) :=
  match db.animals.find? (fun a => a.id == animal_id) with
  | none => .error .notFound
  | some _ =>
    let fid := db.next_form_id
    let f : Form :=
      { id := fid, animal_id := animal_id, form_status := "created", created_date := now
        assigned_date := none, filled_date := none, controlled_date := none
        control_due_date := none }
    let db1 : DB := { db with forms := db.forms ++ [f], next_form_id := fid + 1 }
    let db2 : DB :=
      { db1 with
        animals := updateById Animal.id db1.animals animal_id (fun b =>
          b.setFormIds (b.form_ids ++ [(fid : Int)])) }
    .ok (db2, f)

/-- Status transition block of `update_form` (form.py lines 163-180):
entering `sent` from a different status stamps `assigned_date = now` and
`control_due_date = now + 7 days`; entering `filled` stamps
`filled_date`; entering `controlled` stamps `controlled_date`; the
status itself is always overwritten with the requested value. -/
def applyStatus (new_status : String) (now : DateTime) (f : Form) : Form :=
  let f1 :=
    if new_status == "sent" && !(f.form_status == "sent") then
      { f with assigned_date := some now, control_due_date := some (addDays now 7) }
    else if new_status == "filled" && !(f.form_status == "filled") then
      { f with filled_date := some now }
    else if new_status == "controlled" && !(f.form_status == "controlled") then
      { f with controlled_date := some now }
    else f
  { f1 with form_status := new_status }

/-- Route `update_form` (form.py lines 142-188) with the request body
`FormUpdate` of `app/schemas/form.py` (a single optional unvalidated
string field `form_status`; `none` models the field left unset, in
which case `dict(exclude_unset=True)` makes the update a no-op).  After
committing the form the status reconciler runs for the owning animal. -/
def update_form (db : DB) (fid : Nat) (upd : Option String) (now : DateTime) :
    Except Err (DB × Form) :=
  match db.forms.find? (fun f => f.id == fid) with
  | none => .error .notFound
  | some f0 =>
    match upd with
    | none => .ok (update_animal_from_latest_form db f0.animal_id, f0)
    | some s =>
      let f1 := applyStatus s now f0
      let db1 : DB := { db with forms := updateById Form.id db.forms fid (applyStatus s now) }
      .ok (update_animal_from_latest_form db1 f1.animal_id, f1)

/-- Mirror-removal step of `delete_form` (form.py lines 204-212): when
the owning animal exists, its `form_ids` list is truthy and contains the
form id, remove the id (first occurrence) through the setter.  Other
cases perform no write. -/
def removeFormIdFromAnimal (db : DB) (aid fid : Nat) : DB :=
  match db.animals.find? (fun a => a.id == aid) with
  | none => db
  | some a =>
    if !a.form_ids.isEmpty && a.form_ids.contains (fid : Int) then
      { db with
        animals := updateById Animal.id db.animals aid (fun b =>
          b.setFormIds (b.form_ids.erase (fid : Int))) }
    else db

/-- Route `delete_form` (form.py lines 191-220): look up the form; run
the mirror-removal step; delete the form row; reconcile the owning
animal from the remaining forms. -/
def delete_form (db : DB) (fid : Nat) : Except Err DB :=
  match db.forms.find? (fun f => f.id == fid) with
  | none => .error .notFound
  | some f0 =>
    let db1 := removeFormIdFromAnimal db f0.animal_id fid
    let db2 : DB := { db1 with forms := db1.forms.eraseP (fun f => f.id == fid) }
    .ok (update_animal_from_latest_form db2 f0.animal_id)

/-- Route `create_form_for_animal` (animal.py lines 115-140): like
`create_form` but additionally sets the animal's
`last_form_created_date` to the new form's creation date. -/
def create_form_for_animal (db : DB) (now : DateTime) (animal_id : Nat) :
    Except Err (DB × Form) :=
  match db.animals.find? (fun a => a.id == animal_id) with
  | none => .error .notFound
  | some _ =>
    let fid := db.next_form_id
    let f : Form :=
      { id := fid, animal_id := animal_id, form_status := "created", created_date := now
        assigned_date := none, filled_date := none, controlled_date := none
        control_due_date := none }
    let db1 : DB := { db with forms := db.forms ++ [f], next_form_id := fid + 1 }
    let db2 : DB :=
      { db1 with
        animals := updateById Animal.id db1.animals animal_id (fun b =>
          { b.setFormIds (b.form_ids ++ [(fid : Int)]) with
            last_form_created_date := some now }) }
    .ok (db2, f)

/-! Library lemmas about table updates, the latest-form query and the
reconciler. -/

theorem updateById_find?_self {α : Type} (getId : α → Nat) (l : List α) (i : Nat)
    (g : α → α) (hg : ∀ x, getId (g x) = getId x) :
    (updateById getId l i g).find? (fun x => getId x == i) =
      (l.find? (fun x => getId x == i)).map g := by
  induction l with
  | nil => rfl
  | cons x xs ih =>
    by_cases hx : getId x == i
    · simp [updateById, List.find?, hx, hg]
    · simp only [updateById, List.map_cons] at *
      rw [if_neg (by simpa using hx)]
      rw [List.find?_cons, List.find?_cons]
      simp only [hx, cond_false]
      exact ih

theorem updateById_find?_ne {α : Type} (getId : α → Nat) (l : List α) (i j : Nat)
    (g : α → α) (hg : ∀ x, getId (g x) = getId x) (hne : i ≠ j) :
    (updateById getId l i g).find? (fun x => getId x == j) =
      l.find? (fun x => getId x == j) := by
  induction l with
  | nil => rfl
  | cons x xs ih =>
    simp only [updateById, List.map_cons]
    by_cases hx : getId x == i
    · rw [if_pos hx]
      rw [List.find?_cons, List.find?_cons]
      have h1 : (getId (g x) == j) = (getId x == j) := by rw [hg]
      rw [h1]
      by_cases hj : getId x == j
      · exact absurd (by
          have hxi : getId x = i := by simpa using hx
          have hxj : getId x = j := by simpa using hj
          omega) hne
      · simp only [hj, cond_false]
        exact ih
    · rw [if_neg hx]
      rw [List.find?_cons, List.find?_cons]
      by_cases hj : getId x == j
      · simp [hj]
      · simp only [hj, cond_false]
        exact ih

theorem updateById_find?_proj {α β : Type} (getId : α → Nat) (proj : α → β)
    (l : List α) (i j : Nat) (g : α → α) (hg : ∀ x, getId (g x) = getId x)
    (hproj : ∀ x, proj (g x) = proj x) :
    ((updateById getId l i g).find? (fun x => getId x == j)).map proj =
      (l.find? (fun x => getId x == j)).map proj := by
  by_cases hij : i = j
  · subst hij
    rw [updateById_find?_self getId l i g hg]
    cases l.find? (fun x => getId x == i) with
    | none => rfl
    | some x => simp [hproj]
  · rw [updateById_find?_ne getId l i j g hg hij]

theorem applyStatus_animal_id (s : String) (now : DateTime) (f : Form) :
    (applyStatus s now f).animal_id = f.animal_id := by
  unfold applyStatus
  split
  · rfl
  · split
    · rfl
    · split <;> rfl

theorem applyStatus_id (s : String) (now : DateTime) (f : Form) :
    (applyStatus s now f).id = f.id := by
  unfold applyStatus
  split
  · rfl
  · split
    · rfl
    · split <;> rfl

theorem applyStatus_created_date (s : String) (now : DateTime) (f : Form) :
    (applyStatus s now f).created_date = f.created_date := by
  unfold applyStatus
  split
  · rfl
  · split
    · rfl
    · split <;> rfl

theorem applyStatus_form_status (s : String) (now : DateTime) (f : Form) :
    (applyStatus s now f).form_status = s := rfl

/-- Re-applying the status a form already carries touches no date field:
every guard compares the requested status with the current one. -/
theorem applyStatus_of_status_eq (s : String) (now : DateTime) (f : Form)
    (h : f.form_status = s) : applyStatus s now f = { f with form_status := s } := by
  unfold applyStatus
  rw [h]
  by_cases h1 : s = "sent"
  · simp [h1]
  · by_cases h2 : s = "filled"
    · simp [h1, h2]
    · by_cases h3 : s = "controlled"
      · simp [h1, h2, h3]
      · simp [h1, h2, h3]

theorem setFormIds_id (a : Animal) (l : List Int) : (a.setFormIds l).id = a.id := rfl

theorem setFormIds_form_status (a : Animal) (l : List Int) :
    (a.setFormIds l).form_status = a.form_status := rfl

theorem setFormIds_last_sent (a : Animal) (l : List Int) :
    (a.setFormIds l).last_form_sent_date = a.last_form_sent_date := rfl

theorem setFormIds_last_created (a : Animal) (l : List Int) :
    (a.setFormIds l).last_form_created_date = a.last_form_created_date := rfl

theorem setFormIds_period (a : Animal) (l : List Int) :
    (a.setFormIds l).form_generation_period = a.form_generation_period := rfl

/-- The reconciler never changes the forms table. -/
theorem reconcile_forms (db : DB) (aid : Nat) :
    (update_animal_from_latest_form db aid).forms = db.forms := by
  unfold update_animal_from_latest_form
  cases db.animals.find? (fun a => a.id == aid) with
  | none => rfl
  | some a =>
    cases latestForm db aid with
    | none => rfl
    | some lf => rfl

/-- The latest-form query only reads the forms table. -/
theorem latestForm_congr (db db2 : DB) (aid : Nat) (h : db.forms = db2.forms) :
    latestForm db aid = latestForm db2 aid := by
  unfold latestForm
  rw [h]

/-- The max-by-id fold returns a value whenever its accumulator is set. -/
theorem foldl_latest_some (l : List Form) (f : Form) :
    (l.foldl
      (fun acc g =>
        match acc with
        | none => some g
        | some h => if h.id < g.id then some g else some h)
      (some f)).isSome = true := by
  induction l generalizing f with
  | nil => rfl
  | cons x xs ih =>
    simp only [List.foldl_cons]
    by_cases h : f.id < x.id
    · simpa [h] using ih x
    · simpa [h] using ih f

/-- An animal with at least one form has a latest form. -/
theorem latestForm_isSome_of_mem (db : DB) (aid : Nat) (f : Form)
    (hf : f ∈ db.forms) (ha : f.animal_id = aid) :
    ∃ lf, latestForm db aid = some lf := by
  unfold latestForm
  have hmem : f ∈ db.forms.filter (fun g => g.animal_id == aid) := by
    rw [List.mem_filter]
    exact ⟨hf, by simpa using ha⟩
  obtain ⟨x, xs, hx⟩ := List.exists_cons_of_ne_nil (List.ne_nil_of_mem hmem)
  rw [hx]
  simp only [List.foldl_cons]
  have := foldl_latest_some xs x
  exact Option.isSome_iff_exists.mp this

/-- Shape of the reconciler's result when the animal and a latest form
exist: the found animal's row is rewritten in place. -/
theorem reconcile_find?_eq (db : DB) (aid : Nat) (a : Animal) (lf : Form)
    (ha : db.animals.find? (fun x => x.id == aid) = some a)
    (hl : latestForm db aid = some lf) :
    (update_animal_from_latest_form db aid).animals.find? (fun x => x.id == aid) =
      some { a with
        form_status := lf.form_status
        last_form_sent_date :=
          match lf.assigned_date with
          | some d => some d
          | none => a.last_form_sent_date } := by
  unfold update_animal_from_latest_form
  rw [ha, hl]
  simp only
  rw [updateById_find?_self Animal.id db.animals aid
    (fun x =>
      { x with
        form_status := lf.form_status
        last_form_sent_date :=
          match lf.assigned_date with
          | some d => some d
          | none => x.last_form_sent_date })
    (fun x => rfl)]
  rw [ha]
  rfl

/-- The reconciler leaves the animals table unchanged when the animal is
missing or has no forms. -/
theorem reconcile_eq_of_no_latest (db : DB) (aid : Nat)
    (h : latestForm db aid = none) : update_animal_from_latest_form db aid = db := by
  unfold update_animal_from_latest_form
  cases hfind : db.animals.find? (fun x => x.id == aid) with
  | none => rfl
  | some a => rw [h]

theorem reconcile_eq_of_no_animal (db : DB) (aid : Nat)
    (h : db.animals.find? (fun x => x.id == aid) = none) :
    update_animal_from_latest_form db aid = db := by
  unfold update_animal_from_latest_form
  rw [h]

/-- Projections the reconciler never writes (anything other than
`form_status` and `last_form_sent_date`) survive reconciliation on every
row lookup. -/
theorem reconcile_find?_proj {β : Type} (proj : Animal → β) (db : DB) (aid bid : Nat)
    (hproj : ∀ (x : Animal) (st : String) (d : Option DateTime),
      proj { x with form_status := st, last_form_sent_date := d } = proj x) :
    ((update_animal_from_latest_form db aid).animals.find? (fun x => x.id == bid)).map proj =
      (db.animals.find? (fun x => x.id == bid)).map proj := by
  unfold update_animal_from_latest_form
  cases hfind : db.animals.find? (fun x => x.id == aid) with
  | none => rfl
  | some a =>
    cases hl : latestForm db aid with
    | none => rfl
    | some lf =>
      simp only
      exact updateById_find?_proj Animal.id proj db.animals aid bid _ (fun x => rfl)
        (fun x => hproj x _ _)

/-! Round-trip of the JSON int-list codec. -/

theorem digitVal_digitChar (d : Nat) (h : d ≤ 9) : digitVal (digitChar d) = some d := by
  interval_cases d <;> decide

theorem digitChar_ne_comma (d : Nat) (h : d ≤ 9) : digitChar d ≠ ',' := by
  interval_cases d <;> decide

theorem digitChar_ne_minus (d : Nat) (h : d ≤ 9) : digitChar d ≠ '-' := by
  interval_cases d <;> decide

theorem mem_natDigitsAux (fuel : Nat) :
    ∀ (n : Nat) (c : Char), c ∈ natDigitsAux fuel n → ∃ d, d ≤ 9 ∧ c = digitChar d := by
  induction fuel with
  | zero => intro n c hc; simp [natDigitsAux] at hc
  | succ fuel ih =>
    intro n c hc
    by_cases hn : n = 0
    · subst hn; simp [natDigitsAux] at hc
    · rw [show natDigitsAux (fuel + 1) n = natDigitsAux fuel (n / 10) ++ [digitChar (n % 10)]
        from by simp [natDigitsAux, hn]] at hc
      rcases List.mem_append.mp hc with h1 | h2
      · exact ih (n / 10) c h1
      · refine ⟨n % 10, by omega, ?_⟩
        simpa using h2

theorem mem_natToChars (n : Nat) (c : Char) (h : c ∈ natToChars n) :
    ∃ d, d ≤ 9 ∧ c = digitChar d := by
  unfold natToChars at h
  by_cases hn : n = 0
  · subst hn
    simp at h
    exact ⟨0, by omega, by simpa using h⟩
  · rw [if_neg (by simpa using hn)] at h
    exact mem_natDigitsAux n n c h

theorem natToChars_ne_nil (n : Nat) : natToChars n ≠ [] := by
  unfold natToChars
  by_cases hn : n = 0
  · simp [hn]
  · rw [if_neg (by simpa using hn)]
    obtain ⟨m, hm⟩ := Nat.exists_eq_succ_of_ne_zero hn
    rw [hm]
    rw [show natDigitsAux (m + 1) (m + 1) =
        natDigitsAux m ((m + 1) / 10) ++ [digitChar ((m + 1) % 10)] from by
      simp [natDigitsAux]]
    simp

theorem intToChars_ne_nil (i : Int) : intToChars i ≠ [] := by
  unfold intToChars
  by_cases hi : i < 0
  · simp [hi]
  · rw [if_neg hi]
    exact natToChars_ne_nil _

theorem comma_not_mem_intToChars (i : Int) : ',' ∉ intToChars i := by
  intro hmem
  unfold intToChars at hmem
  by_cases hi : i < 0
  · rw [if_pos hi] at hmem
    rcases List.mem_cons.mp hmem with h | h
    · exact absurd h.symm (by decide)
    · obtain ⟨d, hd, hc⟩ := mem_natToChars _ _ h
      exact digitChar_ne_comma d hd hc.symm
  · rw [if_neg hi] at hmem
    obtain ⟨d, hd, hc⟩ := mem_natToChars _ _ hmem
    exact digitChar_ne_comma d hd hc.symm

theorem foldl_natDigitsAux (fuel : Nat) :
    ∀ (n acc : Nat), n ≤ fuel →
      (natDigitsAux fuel n).foldl parseDigitStep (some acc) =
        some (acc * 10 ^ (natDigitsAux fuel n).length + n) := by
  induction fuel with
  | zero =>
    intro n acc h
    have hn : n = 0 := by omega
    subst hn
    simp [natDigitsAux]
  | succ fuel ih =>
    intro n acc h
    by_cases hn : n = 0
    · subst hn; simp [natDigitsAux]
    · have heq : natDigitsAux (fuel + 1) n =
          natDigitsAux fuel (n / 10) ++ [digitChar (n % 10)] := by
        simp [natDigitsAux, hn]
      have hrec : n / 10 ≤ fuel := by omega
      rw [heq, List.foldl_append, ih (n / 10) acc hrec]
      simp only [List.foldl_cons, List.foldl_nil]
      rw [show parseDigitStep (some (acc * 10 ^ (natDigitsAux fuel (n / 10)).length + n / 10))
            (digitChar (n % 10)) =
          some ((acc * 10 ^ (natDigitsAux fuel (n / 10)).length + n / 10) * 10 + n % 10) from by
        simp [parseDigitStep, digitVal_digitChar (n % 10) (by omega)]]
      congr 1
      rw [List.length_append]
      simp only [List.length_cons, List.length_nil]
      rw [pow_succ]
      generalize (10 : Nat) ^ (natDigitsAux fuel (n / 10)).length = k
      have hdm : n / 10 * 10 + n % 10 = n := by omega
      calc (acc * k + n / 10) * 10 + n % 10
          = acc * (k * 10) + (n / 10 * 10 + n % 10) := by ring
        _ = acc * (k * 10) + n := by rw [hdm]

theorem parseNatChars_natToChars (n : Nat) : parseNatChars (natToChars n) = some n := by
  by_cases hn : n = 0
  · subst hn; decide
  · have hne := natToChars_ne_nil n
    obtain ⟨c, cs, hcs⟩ := List.exists_cons_of_ne_nil hne
    have hfold : (natToChars n).foldl parseDigitStep (some 0) = some n := by
      unfold natToChars
      rw [if_neg (by simpa using hn)]
      rw [foldl_natDigitsAux n n 0 (le_refl n)]
      simp
    rw [hcs]
    show (c :: cs).foldl parseDigitStep (some 0) = some n
    rw [← hcs]
    exact hfold

theorem parseIntChars_intToChars (i : Int) : parseIntChars (intToChars i) = some i := by
  by_cases hi : i < 0
  · rw [show intToChars i = '-' :: natToChars (-i).toNat from by simp [intToChars, hi]]
    have h2 : parseIntChars ('-' :: natToChars (-i).toNat) =
        (parseNatChars (natToChars (-i).toNat)).map (fun n => -(n : Int)) := by
      simp [parseIntChars]
    rw [h2, parseNatChars_natToChars]
    have hcast : (((-i).toNat : Nat) : Int) = -i := Int.toNat_of_nonneg (by omega)
    show some (-(((-i).toNat : Nat) : Int)) = some i
    rw [hcast]
    congr 1
    omega
  · rw [show intToChars i = natToChars i.toNat from by simp [intToChars, hi]]
    obtain ⟨c, cs, hcs⟩ := List.exists_cons_of_ne_nil (natToChars_ne_nil i.toNat)
    have hcne : c ≠ '-' := by
      obtain ⟨d, hd, hc⟩ := mem_natToChars i.toNat c (by rw [hcs]; exact List.mem_cons_self c cs)
      rw [hc]
      exact digitChar_ne_minus d hd
    have h2 : parseIntChars (c :: cs) = (parseNatChars (c :: cs)).map (fun n => (n : Int)) := by
      simp [parseIntChars, hcne]
    rw [hcs, h2, ← hcs, parseNatChars_natToChars]
    have hcast : ((i.toNat : Nat) : Int) = i := Int.toNat_of_nonneg (by omega)
    show some ((i.toNat : Nat) : Int) = some i
    rw [hcast]

theorem splitCS_no_comma (p : List Char) (h : ',' ∉ p) : splitCS p = [p] := by
  induction p with
  | nil => rfl
  | cons c p ih =>
    have hc : c ≠ ',' := fun hc => h (hc ▸ List.mem_cons_self c p)
    cases p with
    | nil => rfl
    | cons c2 p2 =>
      have hrest : splitCS (c2 :: p2) = [c2 :: p2] := ih (fun hm => h (List.mem_cons_of_mem c hm))
      show (if (c == ',' && c2 == ' ') = true then [] :: splitCS p2
        else match splitCS (c2 :: p2) with
          | [] => [[c]]
          | g :: gs => (c :: g) :: gs) = [c :: c2 :: p2]
      rw [if_neg (by simp [hc]), hrest]

theorem splitCS_sep (p : List Char) (rest : List Char) (h : ',' ∉ p) :
    splitCS (p ++ ',' :: ' ' :: rest) = p :: splitCS rest := by
  induction p with
  | nil =>
    show (if (',' == ',' && ' ' == ' ') = true then [] :: splitCS rest
      else match splitCS (' ' :: rest) with
        | [] => [[',']]
        | g :: gs => (',' :: g) :: gs) = [] :: splitCS rest
    rw [if_pos (show ((',' == ',' && ' ' == ' ') = true) from rfl)]
  | cons c p ih =>
    have hc : c ≠ ',' := fun hc => h (hc ▸ List.mem_cons_self c p)
    have hih : splitCS (p ++ ',' :: ' ' :: rest) = p :: splitCS rest :=
      ih (fun hm => h (List.mem_cons_of_mem c hm))
    obtain ⟨y, ys, hys⟩ : ∃ y ys, p ++ ',' :: ' ' :: rest = y :: ys := by
      cases p with
      | nil => exact ⟨',', ' ' :: rest, rfl⟩
      | cons a as => exact ⟨a, as ++ ',' :: ' ' :: rest, rfl⟩
    show splitCS (c :: (p ++ ',' :: ' ' :: rest)) = (c :: p) :: splitCS rest
    rw [hys]
    show (if (c == ',' && y == ' ') = true then [] :: splitCS ys
      else match splitCS (y :: ys) with
        | [] => [[c]]
        | g :: gs => (c :: g) :: gs) = (c :: p) :: splitCS rest
    rw [if_neg (by simp [hc]), ← hys, hih]

theorem splitCS_joinSep (ps : List (List Char)) (hne : ps ≠ [])
    (h : ∀ p ∈ ps, ',' ∉ p) : splitCS (joinSep ps) = ps := by
  induction ps with
  | nil => exact absurd rfl hne
  | cons p ps ih =>
    cases ps with
    | nil =>
      show splitCS (joinSep [p]) = [p]
      rw [show joinSep [p] = p from rfl]
      exact splitCS_no_comma p (h p (List.mem_cons_self p []))
    | cons q ps2 =>
      rw [show joinSep (p :: q :: ps2) = p ++ ',' :: ' ' :: joinSep (q :: ps2) from rfl]
      rw [splitCS_sep p (joinSep (q :: ps2)) (h p (List.mem_cons_self p (q :: ps2)))]
      rw [ih (by simp) (fun r hr => h r (List.mem_cons_of_mem p hr))]

theorem parseAll_map_intToChars (l : List Int) :
    parseAll (l.map intToChars) = some l := by
  induction l with
  | nil => rfl
  | cons i l ih =>
    show (match parseIntChars (intToChars i), parseAll (l.map intToChars) with
      | some j, some is => some (j :: is)
      | _, _ => none) = some (i :: l)
    rw [parseIntChars_intToChars, ih]

theorem joinSep_map_ne_nil (i : Int) (l : List Int) :
    joinSep ((i :: l).map intToChars) ≠ [] := by
  cases l with
  | nil =>
    show joinSep [intToChars i] ≠ []
    exact intToChars_ne_nil i
  | cons j l2 =>
    show intToChars i ++ ',' :: ' ' :: joinSep ((j :: l2).map intToChars) ≠ []
    simp

theorem loads_dumps (l : List Int) : loadsIntList (dumpsIntList l) = some l := by
  show (match ('[' :: joinSep (l.map intToChars) ++ [']'] : List Char) with
    | '[' :: rest =>
      if rest.getLast? == some ']' then
        if rest.dropLast.isEmpty then some [] else parseAll (splitCS rest.dropLast)
      else none
    | _ => none) = some l
  show (if (joinSep (l.map intToChars) ++ [']']).getLast? == some ']' then
      if (joinSep (l.map intToChars) ++ [']']).dropLast.isEmpty then some []
      else parseAll (splitCS (joinSep (l.map intToChars) ++ [']']).dropLast)
    else none) = some l
  rw [List.getLast?_concat, List.dropLast_concat]
  rw [if_pos (by simp)]
  cases l with
  | nil => rfl
  | cons i l2 =>
    rw [if_neg (by simpa using joinSep_map_ne_nil i l2)]
    rw [splitCS_joinSep _ (by simp) (by
      intro p hp hmem
      obtain ⟨j, hj, hpj⟩ := List.mem_map.mp hp
      exact comma_not_mem_intToChars j (hpj ▸ hmem))]
    exact parseAll_map_intToChars (i :: l2)

/-- Round-trip of the `form_ids` property: reading back what the setter
stored yields the same list. -/
theorem form_ids_setFormIds (a : Animal) (l : List Int) :
    (a.setFormIds l).form_ids = l := by
  show (if (dumpsIntList l).data.isEmpty then []
    else (loadsIntList (dumpsIntList l)).getD []) = l
  rw [if_neg (by simp [dumpsIntList])]
  rw [loads_dumps]
  rfl

/-! Behaviour of the periodic sweep, one animal at a time. -/

theorem find?_append_cons {α : Type} (l1 : List α) (a : α) (l2 : List α) (p : α → Bool)
    (h : ∀ b ∈ l1, p b = false) (ha : p a = true) :
    (l1 ++ a :: l2).find? p = some a := by
  induction l1 with
  | nil => simp [List.find?_cons, ha]
  | cons x xs ih =>
    rw [List.cons_append, List.find?_cons]
    rw [h x (List.mem_cons_self x xs)]
    exact ih (fun b hb => h b (List.mem_cons_of_mem x hb))

theorem sweepStep_not_due (now : DateTime) (st : DB × List Form) (a : Animal)
    (h : should_create a now = false) : sweepStep now st a = st := by
  simp [sweepStep, h]

theorem sweepStep_due_animals (now : DateTime) (st : DB × List Form) (a : Animal)
    (h : should_create a now = true) :
    (sweepStep now st a).1.animals =
      updateById Animal.id st.1.animals a.id (fun b =>
        b.setFormIds (b.form_ids ++ [(st.1.next_form_id : Int)])) := by
  simp [sweepStep, h]

theorem sweepStep_due_created (now : DateTime) (st : DB × List Form) (a : Animal)
    (h : should_create a now = true) :
    (sweepStep now st a).2 = st.2 ++
      [{ id := st.1.next_form_id, animal_id := a.id, form_status := "created"
         created_date := now, assigned_date := none, filled_date := none
         controlled_date := none, control_due_date := none }] := by
  simp [sweepStep, h]

theorem sweepStep_other (now : DateTime) (st : DB × List Form) (a : Animal) (tid : Nat)
    (hne : a.id ≠ tid) :
    (sweepStep now st a).1.animals.find? (fun x => x.id == tid) =
        st.1.animals.find? (fun x => x.id == tid) ∧
      (sweepStep now st a).2.filter (fun f => f.animal_id == tid) =
        st.2.filter (fun f => f.animal_id == tid) := by
  by_cases h : should_create a now
  · constructor
    · rw [sweepStep_due_animals now st a h]
      exact updateById_find?_ne Animal.id st.1.animals a.id tid _ (fun x => rfl) hne
    · rw [sweepStep_due_created now st a h, List.filter_append]
      have hbeq : (a.id == tid) = false := by simpa using hne
      rw [show (List.filter (fun f => f.animal_id == tid)
          [{ id := st.1.next_form_id, animal_id := a.id, form_status := "created"
             created_date := now, assigned_date := none, filled_date := none
             controlled_date := none, control_due_date := none }] : List Form) = [] from by
        simp [List.filter, hbeq]]
      simp
  · rw [sweepStep_not_due now st a (by simpa using h)]
    exact ⟨rfl, rfl⟩

theorem foldl_sweep_other (now : DateTime) (l : List Animal) (tid : Nat)
    (h : ∀ b ∈ l, b.id ≠ tid) :
    ∀ st : DB × List Form,
      (l.foldl (sweepStep now) st).1.animals.find? (fun x => x.id == tid) =
          st.1.animals.find? (fun x => x.id == tid) ∧
        (l.foldl (sweepStep now) st).2.filter (fun f => f.animal_id == tid) =
          st.2.filter (fun f => f.animal_id == tid) := by
  induction l with
  | nil => intro st; exact ⟨rfl, rfl⟩
  | cons b bs ih =>
    intro st
    rw [List.foldl_cons]
    have hstep := sweepStep_other now st b tid (h b (List.mem_cons_self b bs))
    have hrest := ih (fun x hx => h x (List.mem_cons_of_mem b hx)) (sweepStep now st b)
    exact ⟨hrest.1.trans hstep.1, hrest.2.trans hstep.2⟩

/-- Processing of a due animal by one sweep: exactly one new form is
created for it (status `created`, creation date `now`), and its row in
the animals table only gains the new form id in `form_ids`. -/
theorem sweep_processes_due (db : DB) (now : DateTime) (l1 : List Animal) (a : Animal)
    (l2 : List Animal) (hsplit : db.animals = l1 ++ a :: l2)
    (h1 : ∀ b ∈ l1, b.id ≠ a.id) (h2 : ∀ b ∈ l2, b.id ≠ a.id)
    (hdue : should_create a now = true) :
    ∃ fid,
      (run_periodic_form_generation db now).2.filter (fun f => f.animal_id == a.id) =
        [{ id := fid, animal_id := a.id, form_status := "created", created_date := now
           assigned_date := none, filled_date := none, controlled_date := none
           control_due_date := none }] ∧
      (run_periodic_form_generation db now).1.animals.find? (fun x => x.id == a.id) =
        some (a.setFormIds (a.form_ids ++ [(fid : Int)])) := by
  unfold run_periodic_form_generation
  rw [hsplit, List.foldl_append, List.foldl_cons]
  set st1 := l1.foldl (sweepStep now) (db, []) with hst1
  have hother1 := foldl_sweep_other now l1 a.id (fun b hb => h1 b hb) (db, [])
  rw [← hst1] at hother1
  have hfind1 : st1.1.animals.find? (fun x => x.id == a.id) = some a := by
    rw [hother1.1]
    show db.animals.find? (fun x => x.id == a.id) = some a
    rw [hsplit]
    exact find?_append_cons l1 a l2 _ (fun b hb => by simpa using h1 b hb) (by simp)
  refine ⟨st1.1.next_form_id, ?_⟩
  have hother2 := foldl_sweep_other now l2 a.id (fun b hb => h2 b hb) (sweepStep now st1 a)
  constructor
  · rw [hother2.2, sweepStep_due_created now st1 a hdue, List.filter_append]
    rw [hother1.2]
    simp [List.filter]
  · rw [hother2.1, sweepStep_due_animals now st1 a hdue]
    rw [updateById_find?_self Animal.id st1.1.animals a.id
      (fun b => b.setFormIds (b.form_ids ++ [(st1.1.next_form_id : Int)])) (fun x => rfl)]
    rw [hfind1]
    rfl

/-- A non-due animal is untouched by the sweep and gets no form. -/
theorem sweep_skips_not_due (db : DB) (now : DateTime) (l1 : List Animal) (a : Animal)
    (l2 : List Animal) (hsplit : db.animals = l1 ++ a :: l2)
    (h1 : ∀ b ∈ l1, b.id ≠ a.id) (h2 : ∀ b ∈ l2, b.id ≠ a.id)
    (hdue : should_create a now = false) :
    (run_periodic_form_generation db now).2.filter (fun f => f.animal_id == a.id) = [] ∧
      (run_periodic_form_generation db now).1.animals.find? (fun x => x.id == a.id) =
        some a := by
  unfold run_periodic_form_generation
  rw [hsplit, List.foldl_append, List.foldl_cons]
  set st1 := l1.foldl (sweepStep now) (db, []) with hst1
  have hother1 := foldl_sweep_other now l1 a.id (fun b hb => h1 b hb) (db, [])
  rw [← hst1] at hother1
  rw [sweepStep_not_due now st1 a hdue]
  have hother2 := foldl_sweep_other now l2 a.id (fun b hb => h2 b hb) st1
  constructor
  · rw [hother2.2, hother1.2]
    rfl
  · rw [hother2.1, hother1.1]
    show db.animals.find? (fun x => x.id == a.id) = some a
    rw [hsplit]
    exact find?_append_cons l1 a l2 _ (fun b hb => by simpa using h1 b hb) (by simp)

/-! Unfolding and frame lemmas for the routes. -/

theorem removeFormIdFromAnimal_forms (db : DB) (aid fid : Nat) :
    (removeFormIdFromAnimal db aid fid).forms = db.forms := by
  unfold removeFormIdFromAnimal
  split
  · rfl
  · split <;> rfl

theorem removeFormIdFromAnimal_find?_proj {β : Type} (proj : Animal → β)
    (hproj : ∀ (x : Animal) (l : List Int), proj (x.setFormIds l) = proj x)
    (db : DB) (aid fid bid : Nat) :
    ((removeFormIdFromAnimal db aid fid).animals.find? (fun x => x.id == bid)).map proj =
      (db.animals.find? (fun x => x.id == bid)).map proj := by
  unfold removeFormIdFromAnimal
  split
  · rfl
  · split
    · exact updateById_find?_proj Animal.id proj db.animals aid bid _ (fun x => rfl)
        (fun x => hproj x _)
    · rfl

theorem removeFormIdFromAnimal_skip (db : DB) (aid fid : Nat) (a : Animal)
    (ha : db.animals.find? (fun x => x.id == aid) = some a)
    (hmem : a.form_ids.contains ((fid : Nat) : Int) = false) :
    removeFormIdFromAnimal db aid fid = db := by
  unfold removeFormIdFromAnimal
  split
  · rfl
  · rename_i a2 heq
    rw [ha] at heq
    injection heq with heq2
    subst heq2
    rw [hmem, Bool.and_false, if_neg (by simp)]

theorem applyStatus_sent_frame (s : String) (now : DateTime) (f : Form)
    (h : (s == "sent" && !(f.form_status == "sent")) = false) :
    (applyStatus s now f).assigned_date = f.assigned_date ∧
      (applyStatus s now f).control_due_date = f.control_due_date := by
  unfold applyStatus
  simp only [h]
  rw [if_neg (by simp)]
  split
  · exact ⟨rfl, rfl⟩
  · split
    · exact ⟨rfl, rfl⟩
    · exact ⟨rfl, rfl⟩

theorem applyStatus_filled_frame (s : String) (now : DateTime) (f : Form)
    (h : (s == "filled" && !(f.form_status == "filled")) = false) :
    (applyStatus s now f).filled_date = f.filled_date := by
  unfold applyStatus
  split
  · rfl
  · simp only [h]
    rw [if_neg (by simp)]
    split
    · rfl
    · rfl

theorem applyStatus_controlled_frame (s : String) (now : DateTime) (f : Form)
    (h : (s == "controlled" && !(f.form_status == "controlled")) = false) :
    (applyStatus s now f).controlled_date = f.controlled_date := by
  unfold applyStatus
  split
  · rfl
  · split
    · rfl
    · simp only [h]
      rw [if_neg (by simp)]

theorem update_form_some_eq (db : DB) (fid : Nat) (s : String) (now : DateTime) (f0 : Form)
    (hf : db.forms.find? (fun f => f.id == fid) = some f0) :
    update_form db fid (some s) now = .ok
      (update_animal_from_latest_form
        { db with forms := updateById Form.id db.forms fid (applyStatus s now) }
        ((applyStatus s now f0).animal_id),
       applyStatus s now f0) := by
  unfold update_form
  rw [hf]

theorem update_form_find?_after (db : DB) (fid : Nat) (s : String) (now : DateTime)
    (f0 : Form) (aid : Nat) (hf : db.forms.find? (fun f => f.id == fid) = some f0) :
    (update_animal_from_latest_form
      { db with forms := updateById Form.id db.forms fid (applyStatus s now) }
      aid).forms.find? (fun f => f.id == fid) = some (applyStatus s now f0) := by
  rw [reconcile_forms]
  show (updateById Form.id db.forms fid (applyStatus s now)).find? (fun f => f.id == fid) =
    some (applyStatus s now f0)
  rw [updateById_find?_self Form.id db.forms fid (applyStatus s now)
    (fun x => applyStatus_id s now x)]
  rw [hf]
  rfl

/-! Concrete states used by counterexamples and witnesses. -/

def wT0 : DateTime := ⟨2025, 1, 31, 0⟩

def wT1 : DateTime := ⟨2025, 2, 1, 0⟩

def wT2 : DateTime := ⟨2025, 2, 2, 0⟩

/-- Success projection of a route result. -/
def exceptOk {α : Type} : Except Err α → Option α
  | .ok x => some x
  | .error _ => none

def animalSent : Animal :=
  { id := 1, _form_ids := some "[1]", form_status := "sent"
    last_form_sent_date := none, last_form_created_date := none
    form_generation_period := some 2 }

def formSent : Form :=
  { id := 1, animal_id := 1, form_status := "sent", created_date := wT0
    assigned_date := some wT0, filled_date := none, controlled_date := none
    control_due_date := some (addDays wT0 7) }

def dbSent : DB := { animals := [animalSent], forms := [formSent], next_form_id := 2 }

def animalBoot : Animal :=
  { id := 1, _form_ids := some "[]", form_status := "created"
    last_form_sent_date := none, last_form_created_date := none
    form_generation_period := some 2 }

def dbBoot : DB := { animals := [animalBoot], forms := [], next_form_id := 1 }

def formCreated : Form :=
  { id := 1, animal_id := 1, form_status := "created", created_date := wT0
    assigned_date := none, filled_date := none, controlled_date := none
    control_due_date := none }

def animalCr : Animal :=
  { id := 1, _form_ids := some "[1]", form_status := "created"
    last_form_sent_date := none, last_form_created_date := none
    form_generation_period := some 2 }

def dbCr : DB := { animals := [animalCr], forms := [formCreated], next_form_id := 2 }

def emptyDB : DB := { animals := [], forms := [], next_form_id := 0 }

def dummyForm : Form :=
  { id := 0, animal_id := 0, form_status := "created", created_date := wT0
    assigned_date := none, filled_date := none, controlled_date := none
    control_due_date := none }

/-- Success payload of a form route, with a dummy default for the (never
exercised) error case. -/
def getOk (e : Except Err (DB × Form)) : DB × Form := (exceptOk e).getD (emptyDB, dummyForm)

/-- Status writing when no date-stamping guard fires: any requested
status other than sent, filled, controlled is written verbatim. -/
theorem applyStatus_other (s : String) (now : DateTime) (f0 : Form)
    (h1 : s ≠ "sent") (h2 : s ≠ "filled") (h3 : s ≠ "controlled") :
    applyStatus s now f0 = { f0 with form_status := s } := by
  unfold applyStatus
  rw [if_neg (by simp [h1]), if_neg (by simp [h2]), if_neg (by simp [h3])]

/-- C9: the `Animal.form_ids` accessor round-trips: storing any list of
integer ids through the setter and reading it back yields an equal list,
and a `None` or empty stored column reads as the empty list. -/
theorem claim_C9 :
    (∀ (a : Animal) (l : List Int), (a.setFormIds l).form_ids = l) ∧
      (∀ a : Animal, a._form_ids = none → a.form_ids = []) ∧
      (∀ a : Animal, a._form_ids = some "" → a.form_ids = []) := by
  refine ⟨form_ids_setFormIds, ?_, ?_⟩
  · intro a h
    unfold Animal.form_ids
    rw [h]
  · intro a h
    unfold Animal.form_ids
    rw [h]
    rfl

theorem claim_C9_witness :
    (animalSent.setFormIds [3, -7, 0]).form_ids = [3, -7, 0] ∧
      ({ animalSent with _form_ids := none } : Animal).form_ids = [] ∧
      ({ animalSent with _form_ids := some "" } : Animal).form_ids = [] :=
  ⟨claim_C9.1 animalSent [3, -7, 0],
   claim_C9.2.1 { animalSent with _form_ids := none } rfl,
   claim_C9.2.2 { animalSent with _form_ids := some "" } rfl⟩

/-- C3: applying the same status update twice in a row leaves every date
field with the value it had after the first application. -/
theorem claim_C3 (db : DB) (fid : Nat) (s : String) (t1 t2 : DateTime)
    (db1 : DB) (f1 : Form) (db2 : DB) (f2 : Form)
    (h1 : update_form db fid (some s) t1 = .ok (db1, f1))
    (h2 : update_form db1 fid (some s) t2 = .ok (db2, f2)) :
    f2.assigned_date = f1.assigned_date ∧ f2.filled_date = f1.filled_date ∧
      f2.controlled_date = f1.controlled_date ∧
      f2.control_due_date = f1.control_due_date ∧
      f2.created_date = f1.created_date := by
  cases hf : db.forms.find? (fun f => f.id == fid) with
  | none =>
    unfold update_form at h1
    rw [hf] at h1
    simp at h1
  | some f0 =>
    rw [update_form_some_eq db fid s t1 f0 hf] at h1
    injection h1 with h1'
    rw [Prod.mk.injEq] at h1'
    obtain ⟨hdb1, hf1⟩ := h1'
    have hfind2 : db1.forms.find? (fun f => f.id == fid) = some f1 := by
      rw [← hdb1, ← hf1]
      exact update_form_find?_after db fid s t1 f0 _ hf
    rw [update_form_some_eq db1 fid s t2 f1 hfind2] at h2
    injection h2 with h2'
    rw [Prod.mk.injEq] at h2'
    obtain ⟨hdb2, hf2⟩ := h2'
    have hst : f1.form_status = s := by
      rw [← hf1]
      exact applyStatus_form_status s t1 f0
    rw [← hf2, applyStatus_of_status_eq s t2 f1 hst]
    exact ⟨rfl, rfl, rfl, rfl, rfl⟩

def c3fst : DB × Form := getOk (update_form dbSent 1 (some "filled") wT1)

def c3snd : DB × Form := getOk (update_form c3fst.1 1 (some "filled") wT2)

theorem claim_C3_witness :
    c3snd.2.assigned_date = c3fst.2.assigned_date ∧
      c3snd.2.filled_date = c3fst.2.filled_date ∧
      c3snd.2.controlled_date = c3fst.2.controlled_date ∧
      c3snd.2.control_due_date = c3fst.2.control_due_date ∧
      c3snd.2.created_date = c3fst.2.created_date :=
  claim_C3 dbSent 1 "filled" wT1 wT2 c3fst.1 c3fst.2 c3snd.1 c3snd.2 rfl rfl

/-- C4: a status update to `sent` from a different status stamps
`assigned_date = now` and `control_due_date = now + 7 days`, so the due
date equals the assigned date plus exactly seven days. -/
theorem claim_C4 (db : DB) (fid : Nat) (now : DateTime) (f0 : Form) (db' : DB) (f' : Form)
    (hf : db.forms.find? (fun f => f.id == fid) = some f0)
    (hs : f0.form_status ≠ "sent")
    (hu : update_form db fid (some "sent") now = .ok (db', f')) :
    f'.assigned_date = some now ∧ f'.control_due_date = some (addDays now 7) ∧
      f'.control_due_date = f'.assigned_date.map (fun d => addDays d 7) := by
  rw [update_form_some_eq db fid "sent" now f0 hf] at hu
  injection hu with hu'
  rw [Prod.mk.injEq] at hu'
  obtain ⟨hdb, hf'⟩ := hu'
  have hguard : (("sent" == "sent") && !(f0.form_status == "sent")) = true := by
    simp [hs]
  rw [← hf']
  unfold applyStatus
  rw [if_pos hguard]
  exact ⟨rfl, rfl, rfl⟩

def c4res : DB × Form := getOk (update_form dbCr 1 (some "sent") wT1)

theorem claim_C4_witness :
    c4res.2.assigned_date = some wT1 ∧
      c4res.2.control_due_date = some (addDays wT1 7) ∧
      c4res.2.control_due_date = c4res.2.assigned_date.map (fun d => addDays d 7) :=
  claim_C4 dbCr 1 wT1 formCreated c4res.1 c4res.2 rfl (by decide) rfl

/-- C7 fails on the code: an unrecognized status value (`"bogus"`) does
not make the update fail; the update succeeds and the value is written
to the form's `form_status`. -/
theorem claim_C7_counterexample :
    (exceptOk (update_form dbSent 1 (some "bogus") wT1)).map (fun p => p.2.form_status) =
      some "bogus" := by decide

/-- C7 amended: the update never rejects a status value; any requested
status other than the three date-stamping ones (including every
unrecognized value) is written to `form_status` verbatim, all date
fields unchanged, and the update succeeds. -/
theorem claim_C7 (db : DB) (fid : Nat) (s : String) (now : DateTime) (f0 : Form)
    (hf : db.forms.find? (fun f => f.id == fid) = some f0)
    (h1 : s ≠ "sent") (h2 : s ≠ "filled") (h3 : s ≠ "controlled") :
    (exceptOk (update_form db fid (some s) now)).map (fun p => p.2) =
      some { f0 with form_status := s } := by
  rw [update_form_some_eq db fid s now f0 hf]
  show some (applyStatus s now f0) = some { f0 with form_status := s }
  rw [applyStatus_other s now f0 h1 h2 h3]

theorem claim_C7_witness :
    (exceptOk (update_form dbSent 1 (some "bogus") wT1)).map (fun p => p.2) =
      some { formSent with form_status := "bogus" } :=
  claim_C7 dbSent 1 "bogus" wT1 formSent rfl (by decide) (by decide) (by decide)

def c5mid : DB × Form := getOk (update_form dbSent 1 (some "filled") wT1)

def c5fin : DB × Form := getOk (update_form c5mid.1 1 (some "sent") wT2)

/-- C5 fails on the code: re-entering `sent` through an intermediate
state re-stamps `assigned_date`.  The fixture form has `assigned_date =
wT0`; after sent→filled→sent its assigned date has moved to `wT2`. -/
theorem claim_C5_counterexample :
    formSent.assigned_date = some wT0 ∧ c5fin.2.assigned_date = some wT2 ∧ wT2 ≠ wT0 := by
  decide

/-- C5 amended: a date field is left unchanged by any status update that
does not transition into that field's state (in particular re-applying
the current status), and `created_date` is never changed; but a
transition into `sent`, `filled` or `controlled` from a different status
re-stamps the corresponding date field even when it was already set. -/
theorem claim_C5 (db : DB) (fid : Nat) (s : String) (now : DateTime) (f0 : Form)
    (db' : DB) (f' : Form)
    (hf : db.forms.find? (fun f => f.id == fid) = some f0)
    (hu : update_form db fid (some s) now = .ok (db', f')) :
    f'.created_date = f0.created_date ∧
      ((s = "sent" → f0.form_status = "sent") →
        f'.assigned_date = f0.assigned_date ∧ f'.control_due_date = f0.control_due_date) ∧
      ((s = "filled" → f0.form_status = "filled") → f'.filled_date = f0.filled_date) ∧
      ((s = "controlled" → f0.form_status = "controlled") →
        f'.controlled_date = f0.controlled_date) := by
  rw [update_form_some_eq db fid s now f0 hf] at hu
  injection hu with hu'
  rw [Prod.mk.injEq] at hu'
  obtain ⟨hdb, hf'⟩ := hu'
  rw [← hf']
  refine ⟨applyStatus_created_date s now f0, ?_, ?_, ?_⟩
  · intro himp
    apply applyStatus_sent_frame
    by_cases hs : s = "sent"
    · simp [himp hs]
    · simp [hs]
  · intro himp
    apply applyStatus_filled_frame
    by_cases hs : s = "filled"
    · simp [himp hs]
    · simp [hs]
  · intro himp
    apply applyStatus_controlled_frame
    by_cases hs : s = "controlled"
    · simp [himp hs]
    · simp [hs]

def c5res : DB × Form := getOk (update_form dbSent 1 (some "controlled") wT1)

theorem claim_C5_witness :
    c5res.2.created_date = formSent.created_date ∧
      (("controlled" = "sent" → formSent.form_status = "sent") →
        c5res.2.assigned_date = formSent.assigned_date ∧
          c5res.2.control_due_date = formSent.control_due_date) ∧
      (("controlled" = "filled" → formSent.form_status = "filled") →
        c5res.2.filled_date = formSent.filled_date) ∧
      (("controlled" = "controlled" → formSent.form_status = "controlled") →
        c5res.2.controlled_date = formSent.controlled_date) :=
  claim_C5 dbSent 1 "controlled" wT1 formSent c5res.1 c5res.2 rfl rfl

/-- C6: the due check is calendar-month arithmetic: with a positive
period and a set anchor, the animal is due exactly when `now` is at or
after `anchor + period` months, where month addition preserves day of
month when valid and clamps to the end of the shorter month (Jan 31 plus
one month is Feb 28, or Feb 29 in a leap year). -/
theorem claim_C6 :
    (∀ (a : Animal) (now last : DateTime) (p : Int),
        a.form_generation_period = some p → 0 < p →
        a.last_form_sent_date = some last →
        should_create a now = DateTime.le (addMonths last p) now) ∧
      (∀ (d : DateTime) (p : Int), addMonths d p = specAddMonths d p) ∧
      addMonths ⟨2025, 1, 31, 0⟩ 1 = ⟨2025, 2, 28, 0⟩ ∧
      addMonths ⟨2024, 1, 31, 0⟩ 1 = ⟨2024, 2, 29, 0⟩ := by
  refine ⟨?_, ?_, by decide, by decide⟩
  · intro a now last p hp hpos hlast
    simp only [should_create, hp, hlast]
    rw [if_neg (by omega)]
  · intro d p
    simp [addMonths, specAddMonths, Nat.min_def]

def animalC6 : Animal :=
  { id := 2, _form_ids := some "[]", form_status := "sent"
    last_form_sent_date := some wT0, last_form_created_date := none
    form_generation_period := some 1 }

theorem claim_C6_witness :
    should_create animalC6 ⟨2025, 2, 28, 0⟩ =
      DateTime.le (addMonths wT0 1) ⟨2025, 2, 28, 0⟩ :=
  claim_C6.1 animalC6 ⟨2025, 2, 28, 0⟩ wT0 1 rfl (by decide) rfl

/-- C2: an animal with a positive period and no sent anchor is due on
the very first sweep, which creates exactly one form for it; the sweep
never writes `last_form_sent_date`, so the anchor is still unset
afterwards and the animal is due again at any later sweep time. -/
theorem claim_C2 (db : DB) (now now2 : DateTime) (l1 : List Animal) (a : Animal)
    (l2 : List Animal) (p : Int)
    (hsplit : db.animals = l1 ++ a :: l2)
    (h1 : ∀ b ∈ l1, b.id ≠ a.id) (h2 : ∀ b ∈ l2, b.id ≠ a.id)
    (hp : a.form_generation_period = some p) (hpos : 0 < p)
    (hlast : a.last_form_sent_date = none) :
    ((run_periodic_form_generation db now).2.filter
        (fun f => f.animal_id == a.id)).length = 1 ∧
      ((run_periodic_form_generation db now).1.animals.find?
          (fun x => x.id == a.id)).map Animal.last_form_sent_date = some none ∧
      ((run_periodic_form_generation db now).1.animals.find?
          (fun x => x.id == a.id)).map (fun x => should_create x now2) = some true := by
  have hdue : should_create a now = true := by
    simp only [should_create, hp, hlast]
    rw [if_neg (by omega)]
  obtain ⟨fid, hcr, hfind⟩ := sweep_processes_due db now l1 a l2 hsplit h1 h2 hdue
  refine ⟨by rw [hcr]; rfl, ?_, ?_⟩
  · rw [hfind]
    show some ((a.setFormIds (a.form_ids ++ [(fid : Int)])).last_form_sent_date) = some none
    rw [setFormIds_last_sent, hlast]
  · rw [hfind]
    show some (should_create (a.setFormIds (a.form_ids ++ [(fid : Int)])) now2) = some true
    simp only [should_create, setFormIds_period, setFormIds_last_sent, hp, hlast]
    rw [if_neg (by omega)]

theorem claim_C2_witness :
    ((run_periodic_form_generation dbBoot wT0).2.filter
        (fun f => f.animal_id == animalBoot.id)).length = 1 ∧
      ((run_periodic_form_generation dbBoot wT0).1.animals.find?
          (fun x => x.id == animalBoot.id)).map Animal.last_form_sent_date = some none ∧
      ((run_periodic_form_generation dbBoot wT0).1.animals.find?
          (fun x => x.id == animalBoot.id)).map (fun x => should_create x wT1) = some true :=
  claim_C2 dbBoot wT0 wT1 [] animalBoot [] 2 rfl (by simp) (by simp) rfl (by decide) rfl

theorem update_form_none_eq (db : DB) (fid : Nat) (now : DateTime) (f0 : Form)
    (hf : db.forms.find? (fun f => f.id == fid) = some f0) :
    update_form db fid none now =
      .ok (update_animal_from_latest_form db f0.animal_id, f0) := by
  unfold update_form
  rw [hf]

theorem delete_form_some_eq (db : DB) (fid : Nat) (f0 : Form)
    (hf : db.forms.find? (fun f => f.id == fid) = some f0) :
    delete_form db fid = .ok
      (update_animal_from_latest_form
        { removeFormIdFromAnimal db f0.animal_id fid with
          forms := (removeFormIdFromAnimal db f0.animal_id fid).forms.eraseP
            (fun f => f.id == fid) }
        f0.animal_id) := by
  unfold delete_form
  rw [hf]

theorem create_form_some_eq (db : DB) (now : DateTime) (aid : Nat) (a0 : Animal)
    (ha : db.animals.find? (fun a => a.id == aid) = some a0) :
    create_form db now aid = .ok
      ({ animals := updateById Animal.id db.animals aid (fun b =>
           b.setFormIds (b.form_ids ++ [(db.next_form_id : Int)]))
         forms := db.forms ++
           [{ id := db.next_form_id, animal_id := aid, form_status := "created"
              created_date := now, assigned_date := none, filled_date := none
              controlled_date := none, control_due_date := none }]
         next_form_id := db.next_form_id + 1 },
       { id := db.next_form_id, animal_id := aid, form_status := "created"
         created_date := now, assigned_date := none, filled_date := none
         controlled_date := none, control_due_date := none }) := by
  unfold create_form
  rw [ha]

/-- C8 fails on the code: the sweep does not write
`last_form_created_date`.  A due animal starts with the field unset and
the sweep creates a form yet leaves the field unset (not `now`). -/
theorem claim_C8_counterexample :
    (run_periodic_form_generation dbBoot wT0).2.length = 1 ∧
      ((run_periodic_form_generation dbBoot wT0).1.animals.find?
          (fun x => x.id == 1)).map Animal.last_form_created_date = some none ∧
      (none : Option DateTime) ≠ some wT0 := by decide

/-- C8 amended: for every animal found due by the sweep, a form with
status `created` and creation date `now` is created and its id appended
to the animal's `form_ids`; the animal's `last_form_created_date` is
left unchanged (that field is only written by the animal-scoped
`create_form_for_animal` route, not by the sweep). -/
theorem claim_C8 (db : DB) (now : DateTime) (l1 : List Animal) (a : Animal)
    (l2 : List Animal)
    (hsplit : db.animals = l1 ++ a :: l2)
    (h1 : ∀ b ∈ l1, b.id ≠ a.id) (h2 : ∀ b ∈ l2, b.id ≠ a.id)
    (hdue : should_create a now = true) :
    ∃ fid,
      (run_periodic_form_generation db now).2.filter (fun f => f.animal_id == a.id) =
        [{ id := fid, animal_id := a.id, form_status := "created", created_date := now
           assigned_date := none, filled_date := none, controlled_date := none
           control_due_date := none }] ∧
      ((run_periodic_form_generation db now).1.animals.find?
          (fun x => x.id == a.id)).map Animal.form_ids =
        some (a.form_ids ++ [(fid : Int)]) ∧
      ((run_periodic_form_generation db now).1.animals.find?
          (fun x => x.id == a.id)).map Animal.last_form_created_date =
        some a.last_form_created_date := by
  obtain ⟨fid, hcr, hfind⟩ := sweep_processes_due db now l1 a l2 hsplit h1 h2 hdue
  refine ⟨fid, hcr, ?_, ?_⟩
  · rw [hfind]
    show some ((a.setFormIds (a.form_ids ++ [(fid : Int)])).form_ids) =
      some (a.form_ids ++ [(fid : Int)])
    rw [form_ids_setFormIds]
  · rw [hfind]
    show some ((a.setFormIds (a.form_ids ++ [(fid : Int)])).last_form_created_date) =
      some a.last_form_created_date
    rw [setFormIds_last_created]

theorem claim_C8_witness :
    ∃ fid,
      (run_periodic_form_generation dbBoot wT0).2.filter
          (fun f => f.animal_id == animalBoot.id) =
        [{ id := fid, animal_id := animalBoot.id, form_status := "created"
           created_date := wT0, assigned_date := none, filled_date := none
           controlled_date := none, control_due_date := none }] ∧
      ((run_periodic_form_generation dbBoot wT0).1.animals.find?
          (fun x => x.id == animalBoot.id)).map Animal.form_ids =
        some (animalBoot.form_ids ++ [(fid : Int)]) ∧
      ((run_periodic_form_generation dbBoot wT0).1.animals.find?
          (fun x => x.id == animalBoot.id)).map Animal.last_form_created_date =
        some animalBoot.last_form_created_date :=
  claim_C8 dbBoot wT0 [] animalBoot [] rfl (by simp) (by simp) (by decide)

/-- C10: deleting a form whose id is absent from the owning animal's
`form_ids` mirror still succeeds: the form row is deleted, the mirror
list is left unchanged and the removal step raises no error. -/
theorem claim_C10 (db : DB) (fid : Nat) (f0 : Form) (a : Animal)
    (hf : db.forms.find? (fun f => f.id == fid) = some f0)
    (ha : db.animals.find? (fun x => x.id == f0.animal_id) = some a)
    (hmem : a.form_ids.contains ((fid : Nat) : Int) = false) :
    (exceptOk (delete_form db fid)).map DB.forms =
        some (db.forms.eraseP (fun f => f.id == fid)) ∧
      (exceptOk (delete_form db fid)).map
          (fun d => (d.animals.find? (fun x => x.id == f0.animal_id)).map Animal.form_ids) =
        some (some a.form_ids) := by
  rw [delete_form_some_eq db fid f0 hf,
    removeFormIdFromAnimal_skip db f0.animal_id fid a ha hmem]
  constructor
  · show some (update_animal_from_latest_form
        { db with forms := db.forms.eraseP (fun f => f.id == fid) } f0.animal_id).forms =
      some (db.forms.eraseP (fun f => f.id == fid))
    rw [reconcile_forms]
  · show some (((update_animal_from_latest_form
        { db with forms := db.forms.eraseP (fun f => f.id == fid) }
        f0.animal_id).animals.find? (fun x => x.id == f0.animal_id)).map Animal.form_ids) =
      some (some a.form_ids)
    rw [reconcile_find?_proj Animal.form_ids _ f0.animal_id f0.animal_id
      (fun x st d => rfl)]
    show some ((db.animals.find? (fun x => x.id == f0.animal_id)).map Animal.form_ids) =
      some (some a.form_ids)
    rw [ha]
    rfl

def animalStale : Animal :=
  { id := 1, _form_ids := some "[2]", form_status := "sent"
    last_form_sent_date := none, last_form_created_date := none
    form_generation_period := some 2 }

def dbStale : DB := { animals := [animalStale], forms := [formSent], next_form_id := 3 }

theorem claim_C10_witness :
    (exceptOk (delete_form dbStale 1)).map DB.forms =
        some (dbStale.forms.eraseP (fun f => f.id == 1)) ∧
      (exceptOk (delete_form dbStale 1)).map
          (fun d => (d.animals.find? (fun x => x.id == formSent.animal_id)).map
            Animal.form_ids) =
        some (some animalStale.form_ids) :=
  claim_C10 dbStale 1 formSent animalStale rfl rfl (by decide)

/-- C1 fails on the code: `create_form` does not reconcile.  With one
`sent` form mirrored on the animal, creating a second form leaves the
animal's `form_status` at `sent` while the highest-id form has status
`created`. -/
theorem claim_C1_counterexample :
    (exceptOk (create_form dbSent wT0 1)).map (fun p =>
        ((p.1.animals.find? (fun x => x.id == 1)).map Animal.form_status,
         (latestForm p.1 1).map Form.form_status)) =
      some (some "sent", some "created") := by decide

/-- After a reconciliation run in a state that has a latest form, the
animal's mirrored status equals the latest form's status. -/
theorem reconcile_mirror_after (db : DB) (aid : Nat) (lf : Form)
    (hlf : latestForm db aid = some lf) :
    ∀ a', (update_animal_from_latest_form db aid).animals.find?
        (fun x => x.id == aid) = some a' →
      ∃ lf2, latestForm (update_animal_from_latest_form db aid) aid = some lf2 ∧
        a'.form_status = lf2.form_status := by
  intro a' ha'
  refine ⟨lf, by rw [latestForm_congr _ db aid (reconcile_forms db aid)]; exact hlf, ?_⟩
  cases hfa : db.animals.find? (fun x => x.id == aid) with
  | none =>
    rw [reconcile_eq_of_no_animal db aid hfa] at ha'
    rw [hfa] at ha'
    simp at ha'
  | some a0 =>
    have hrec := reconcile_find?_eq db aid a0 lf hfa hlf
    rw [hrec] at ha'
    injection ha' with ha''
    rw [← ha'']

/-- C1 corrected: the reconciliation invariant holds after every status
update and every deletion (where, if no forms remain, the mirrored
status is simply left unchanged); after a form creation through the
create route the mirrored status is left unchanged rather than
reconciled, because that route never invokes the reconciler. -/
theorem claim_C1 :
    (∀ (db : DB) (fid : Nat) (upd : Option String) (now : DateTime) (db' : DB) (f' : Form),
        update_form db fid upd now = .ok (db', f') →
        ∀ a', db'.animals.find? (fun x => x.id == f'.animal_id) = some a' →
          ∃ lf, latestForm db' f'.animal_id = some lf ∧ a'.form_status = lf.form_status) ∧
      (∀ (db : DB) (fid : Nat) (db' : DB) (f0 : Form),
        db.forms.find? (fun f => f.id == fid) = some f0 →
        delete_form db fid = .ok db' →
        ∀ a', db'.animals.find? (fun x => x.id == f0.animal_id) = some a' →
          (∃ lf, latestForm db' f0.animal_id = some lf ∧
            a'.form_status = lf.form_status) ∨
          (latestForm db' f0.animal_id = none ∧
            (db.animals.find? (fun x => x.id == f0.animal_id)).map Animal.form_status =
              some a'.form_status)) ∧
      (∀ (db : DB) (now : DateTime) (aid : Nat) (db' : DB) (f : Form),
        create_form db now aid = .ok (db', f) →
        (db'.animals.find? (fun x => x.id == aid)).map Animal.form_status =
          (db.animals.find? (fun x => x.id == aid)).map Animal.form_status) := by
  refine ⟨?_, ?_, ?_⟩
  · intro db fid upd now db' f' hu a' ha'
    cases hf : db.forms.find? (fun f => f.id == fid) with
    | none =>
      unfold update_form at hu
      rw [hf] at hu
      simp at hu
    | some f0 =>
      cases upd with
      | none =>
        rw [update_form_none_eq db fid now f0 hf] at hu
        injection hu with hu'
        rw [Prod.mk.injEq] at hu'
        obtain ⟨hdb', hf'⟩ := hu'
        subst hf'
        subst hdb'
        obtain ⟨lf, hlf⟩ := latestForm_isSome_of_mem db f0.animal_id f0
          (List.mem_of_find?_eq_some hf) rfl
        exact reconcile_mirror_after db f0.animal_id lf hlf a' ha'
      | some s =>
        rw [update_form_some_eq db fid s now f0 hf] at hu
        injection hu with hu'
        rw [Prod.mk.injEq] at hu'
        obtain ⟨hdb', hf'⟩ := hu'
        subst hf'
        subst hdb'
        have hmem1 : applyStatus s now f0 ∈
            (updateById Form.id db.forms fid (applyStatus s now)) := by
          have hmm := List.mem_map_of_mem
            (fun x => if x.id == fid then applyStatus s now x else x)
            (List.mem_of_find?_eq_some hf)
          have hmm2 : (if (f0.id == fid) = true then applyStatus s now f0 else f0) ∈
              List.map (fun x => if x.id == fid then applyStatus s now x else x)
                db.forms := hmm
          rw [if_pos (List.find?_some hf)] at hmm2
          exact hmm2
        obtain ⟨lf, hlf⟩ := latestForm_isSome_of_mem
          { db with forms := updateById Form.id db.forms fid (applyStatus s now) }
          (applyStatus s now f0).animal_id (applyStatus s now f0) hmem1 rfl
        exact reconcile_mirror_after
          { db with forms := updateById Form.id db.forms fid (applyStatus s now) }
          (applyStatus s now f0).animal_id lf hlf a' ha'
  · intro db fid db' f0 hf hd a' ha'
    rw [delete_form_some_eq db fid f0 hf] at hd
    injection hd with hd'
    subst hd'
    cases hl : latestForm
        { removeFormIdFromAnimal db f0.animal_id fid with
          forms := (removeFormIdFromAnimal db f0.animal_id fid).forms.eraseP
            (fun f => f.id == fid) }
        f0.animal_id with
    | some lf =>
      exact Or.inl (reconcile_mirror_after _ f0.animal_id lf hl a' ha')
    | none =>
      refine Or.inr ⟨?_, ?_⟩
      · rw [latestForm_congr _ _ f0.animal_id (reconcile_forms _ f0.animal_id)]
        exact hl
      · rw [reconcile_eq_of_no_latest _ f0.animal_id hl] at ha'
        have hproj := removeFormIdFromAnimal_find?_proj Animal.form_status
          (fun x l => rfl) db f0.animal_id fid f0.animal_id
        rw [← hproj]
        rw [show (removeFormIdFromAnimal db f0.animal_id fid).animals.find?
            (fun x => x.id == f0.animal_id) = some a' from ha']
        rfl
  · intro db now aid db' f hc
    cases hfa : db.animals.find? (fun x => x.id == aid) with
    | none =>
      unfold create_form at hc
      rw [hfa] at hc
      simp at hc
    | some a0 =>
      rw [create_form_some_eq db now aid a0 hfa] at hc
      injection hc with hc'
      rw [Prod.mk.injEq] at hc'
      obtain ⟨hdb', hfeq⟩ := hc'
      subst hdb'
      have h1 := updateById_find?_proj Animal.id Animal.form_status db.animals aid aid
        (fun b => b.setFormIds (b.form_ids ++ [(db.next_form_id : Int)]))
        (fun x => rfl) (fun x => rfl)
      rw [hfa] at h1
      exact h1

def c1w : DB × Form := getOk (create_form dbSent wT1 1)

theorem claim_C1_witness :
    (c1w.1.animals.find? (fun x => x.id == 1)).map Animal.form_status =
      (dbSent.animals.find? (fun x => x.id == 1)).map Animal.form_status :=
  claim_C1.2.2 dbSent wT1 1 c1w.1 c1w.2 rfl
